import Mathlib

/-!
# PiOmxTextures: `OMX_MediaProcessor` state axes

A shallow embedding of the inline members of `omx_mediaprocessor.h`
(`hasAudio`, `hasVideo`, `state`, `mediaStatus`, `setState`, `setMediaStatus`,
`getMetaData`) and the properties of the playback-state / media-status
notifications that follow from them.

A member function is a Lean function from the object to an `Outcome`: the
returned value, the object after the call and the effects performed, in
program order.  An `emit` effect records the object as it is at the moment
of the emission, which is what a directly connected slot observes.

Types that the header only names (`QVariantMap`, `QMediaTimeRange`, and the
members that are pointers, mutexes, the thread pool and floating-point
numbers) are the type parameters `V`, `R` and `M`.
-/

namespace PiOmxTextures

/-- The enumeration `OMX_MediaProcessor::OMX_MediaProcessorState`. -/
inductive OMX_MediaProcessorState
  | STATE_STOPPED
  | STATE_INACTIVE
  | STATE_PAUSED
  | STATE_PLAYING
  deriving DecidableEq, Repr, Fintype

/-- The enumeration `OMX_MediaProcessor::OMX_MediaStatus`. -/
inductive OMX_MediaStatus
  | MEDIA_STATUS_UNKNOWN
  | MEDIA_STATUS_NO_MEDIA
  | MEDIA_STATUS_LOADING
  | MEDIA_STATUS_LOADED
  | MEDIA_STATUS_STALLED
  | MEDIA_STATUS_BUFFERING
  | MEDIA_STATUS_BUFFERED
  | MEDIA_STATUS_END_OF_MEDIA
  | MEDIA_STATUS_INVALID_MEDIA
  deriving DecidableEq, Repr, Fintype

/-- The enumeration `OMX_MediaProcessor::OMX_MediaProcessorError`. -/
inductive OMX_MediaProcessorError
  | ERROR_CANT_OPEN_FILE
  | ERROR_WRONG_THREAD
  deriving DecidableEq, Repr, Fintype

/-- The static tables `STATE_STR[]` and `M_STATUS[]`, declared in the header
and defined elsewhere; they are indexed by the enumerators. -/
structure LogTables where
  STATE_STR : OMX_MediaProcessorState → String
  M_STATUS : OMX_MediaStatus → String

/-- The `signals:` section of `OMX_MediaProcessor`, one constructor per signal
with its payload. -/
inductive Signal (V R : Type)
  | streamLengthChanged (length : Int)
  | metadataChanged (metadata : V)
  | playbackStarted
  | playbackCompleted
  | errorOccurred (error : OMX_MediaProcessorError)
  | stateChanged (state : OMX_MediaProcessorState)
  | mediaStatusChanged (status : OMX_MediaStatus)
  | bufferStatusChanged (percentage : Int)
  | availablePlaybackRangesChanged (ranges : R)
  deriving DecidableEq

/-- The data members of `OMX_MediaProcessor`.  `V` is `QVariantMap`, `R` is
`QMediaTimeRange` (it occurs in the signals only) and `M` collects the members
this header never reads or writes by value: the provider, the pointers, the
mutexes and wait condition, the thread pool, and the floating-point members
`startpts`, `m_volume` and `m_fps`. -/
structure OMX_MediaProcessor (V R M : Type) where
  m_sourceUrl : String
  m_state : OMX_MediaProcessorState
  m_mediaStatus : OMX_MediaStatus
  m_has_video : Bool
  m_has_audio : Bool
  m_buffer_empty : Bool
  m_pendingStop : Bool
  m_pendingPause : Bool
  m_pendingSeek : Bool
  m_subtitle_index : Int
  m_audio_index : Int
  m_streamLength : Int
  m_incrMs : Int
  m_playspeedCurrent : Int
  m_seekFlush : Bool
  m_packetAfterSeek : Bool
  m_metadata : V
  m_muted : Bool
  others : M
  deriving DecidableEq

/-- What a member function does besides changing the object: a call of the
`log_verbose` macro with its format and string arguments, or the emission of
a signal.  `seen` is the object at the moment of the emission. -/
inductive Effect (V R M : Type)
  | log_verbose (fmt : String) (args : List String)
  | emit (sig : Signal V R) (seen : OMX_MediaProcessor V R M)
  deriving DecidableEq

/-- The result of calling a member function: the value returned, the object
afterwards, and the effects in program order. -/
structure Outcome (V R M α : Type) where
  ret : α
  self : OMX_MediaProcessor V R M
  effects : List (Effect V R M)
  deriving DecidableEq

variable {V R M : Type}

/-- The signals emitted among a list of effects, in order. -/
def emitted : List (Effect V R M) → List (Signal V R)
  | [] => []
  | Effect.log_verbose _ _ :: es => emitted es
  | Effect.emit sig _ :: es => sig :: emitted es

/-- Member `OMX_MediaProcessor::hasAudio`. -/
def hasAudio (self : OMX_MediaProcessor V R M) : Outcome V R M Bool :=
  { ret := self.m_has_audio, self := self, effects := [] }

/-- Member `OMX_MediaProcessor::hasVideo`. -/
def hasVideo (self : OMX_MediaProcessor V R M) : Outcome V R M Bool :=
  { ret := self.m_has_video, self := self, effects := [] }

/-- Member `OMX_MediaProcessor::state`. -/
def state (self : OMX_MediaProcessor V R M) : Outcome V R M OMX_MediaProcessorState :=
  { ret := self.m_state, self := self, effects := [] }

/-- Member `OMX_MediaProcessor::mediaStatus`. -/
def mediaStatus (self : OMX_MediaProcessor V R M) : Outcome V R M OMX_MediaStatus :=
  { ret := self.m_mediaStatus, self := self, effects := [] }

/-- Member `OMX_MediaProcessor::setState`: return at once when the value is the one
held; otherwise log, store, then emit `stateChanged(state)`. -/
def setState (tbl : LogTables) (self : OMX_MediaProcessor V R M)
    (state : OMX_MediaProcessorState) : Outcome V R M Unit :=
  if self.m_state = state then
    { ret := (), self := self, effects := [] }
  else
    let logged : Effect V R M :=
      Effect.log_verbose "State changing from %s to %s..."
        [tbl.STATE_STR self.m_state, tbl.STATE_STR state]
    let stored : OMX_MediaProcessor V R M := { self with m_state := state }
    { ret := (), self := stored,
      effects := [logged, Effect.emit (Signal.stateChanged state) stored] }

/-- Member `OMX_MediaProcessor::setMediaStatus`: return at once when the value is the
one held; otherwise log, store, then emit `mediaStatusChanged(status)`. -/
def setMediaStatus (tbl : LogTables) (self : OMX_MediaProcessor V R M)
    (status : OMX_MediaStatus) : Outcome V R M Unit :=
  if self.m_mediaStatus = status then
    { ret := (), self := self, effects := [] }
  else
    let logged : Effect V R M :=
      Effect.log_verbose "Media status changing from %s to %s..."
        [tbl.M_STATUS self.m_mediaStatus, tbl.M_STATUS status]
    let stored : OMX_MediaProcessor V R M := { self with m_mediaStatus := status }
    { ret := (), self := stored,
      effects := [logged, Effect.emit (Signal.mediaStatusChanged status) stored] }

/-- Member `OMX_MediaProcessor::getMetaData`. -/
def getMetaData (self : OMX_MediaProcessor V R M) : Outcome V R M V :=
  { ret := self.m_metadata, self := self, effects := [] }

/-- A call of one of the two private setters, with its argument. -/
inductive Call
  | setState (state : OMX_MediaProcessorState)
  | setMediaStatus (status : OMX_MediaStatus)
  deriving DecidableEq, Repr

/-- Perform one call on the object. -/
def Call.invoke (tbl : LogTables) (self : OMX_MediaProcessor V R M) :
    Call → Outcome V R M Unit
  | Call.setState s => PiOmxTextures.setState tbl self s
  | Call.setMediaStatus t => PiOmxTextures.setMediaStatus tbl self t

/-- Perform the calls one after the other, each on the object the previous one
left.  The result is the object at the end and, for each call, its effects. -/
def invokeAll (tbl : LogTables) (self : OMX_MediaProcessor V R M) :
    List Call → OMX_MediaProcessor V R M × List (List (Effect V R M))
  | [] => (self, [])
  | c :: cs =>
    let o := c.invoke tbl self
    let rest := invokeAll tbl o.self cs
    (rest.1, o.effects :: rest.2)

/-- The notifications of the `i`-th call (from 0) of a run of `calls`. -/
def notificationsOfCall (tbl : LogTables) (self : OMX_MediaProcessor V R M)
    (calls : List Call) (i : Nat) : List (Signal V R) :=
  emitted ((invokeAll tbl self calls).2.getD i [])

/-- All notifications of a run of `calls`, in emission order. -/
def notificationsOfRun (tbl : LogTables) (self : OMX_MediaProcessor V R M)
    (calls : List Call) : List (Signal V R) :=
  emitted (invokeAll tbl self calls).2.flatten

/-- The argument of a call when it is a `setState`. -/
def Call.stateArg? : Call → Option OMX_MediaProcessorState
  | Call.setState s => some s
  | Call.setMediaStatus _ => none

/-- The argument of a call when it is a `setMediaStatus`. -/
def Call.statusArg? : Call → Option OMX_MediaStatus
  | Call.setState _ => none
  | Call.setMediaStatus t => some t

/-- The playback state held after the calls `earlier`, read off the calls alone:
the argument of the last `setState` among them, or `s0` when there is none. -/
def precedingState (s0 : OMX_MediaProcessorState) (earlier : List Call) :
    OMX_MediaProcessorState :=
  (earlier.filterMap Call.stateArg?).getLast?.getD s0

/-- The media status held after the calls `earlier`, read off the calls alone:
the argument of the last `setMediaStatus` among them, or `t0` when there is
none. -/
def precedingStatus (t0 : OMX_MediaStatus) (earlier : List Call) : OMX_MediaStatus :=
  (earlier.filterMap Call.statusArg?).getLast?.getD t0

/-- The payloads of the `stateChanged` notifications of a list, in order. -/
def statePayloads : List (Signal V R) → List OMX_MediaProcessorState
  | [] => []
  | Signal.stateChanged s :: ns => s :: statePayloads ns
  | _ :: ns => statePayloads ns

/-- The payloads of the `mediaStatusChanged` notifications of a list, in
order. -/
def statusPayloads : List (Signal V R) → List OMX_MediaStatus
  | [] => []
  | Signal.mediaStatusChanged t :: ns => t :: statusPayloads ns
  | _ :: ns => statusPayloads ns

/-- A log table for evaluating the functions on concrete objects: every
enumerator is printed by its name. -/
def enumeratorNames : LogTables where
  STATE_STR
    | .STATE_STOPPED => "STATE_STOPPED"
    | .STATE_INACTIVE => "STATE_INACTIVE"
    | .STATE_PAUSED => "STATE_PAUSED"
    | .STATE_PLAYING => "STATE_PLAYING"
  M_STATUS
    | .MEDIA_STATUS_UNKNOWN => "MEDIA_STATUS_UNKNOWN"
    | .MEDIA_STATUS_NO_MEDIA => "MEDIA_STATUS_NO_MEDIA"
    | .MEDIA_STATUS_LOADING => "MEDIA_STATUS_LOADING"
    | .MEDIA_STATUS_LOADED => "MEDIA_STATUS_LOADED"
    | .MEDIA_STATUS_STALLED => "MEDIA_STATUS_STALLED"
    | .MEDIA_STATUS_BUFFERING => "MEDIA_STATUS_BUFFERING"
    | .MEDIA_STATUS_BUFFERED => "MEDIA_STATUS_BUFFERED"
    | .MEDIA_STATUS_END_OF_MEDIA => "MEDIA_STATUS_END_OF_MEDIA"
    | .MEDIA_STATUS_INVALID_MEDIA => "MEDIA_STATUS_INVALID_MEDIA"

/-- A concrete object: a loaded, inactive processor with audio and video. -/
def loadedProcessor : OMX_MediaProcessor (List (String × String)) Unit Unit where
  m_sourceUrl := "clip.mp4"
  m_state := .STATE_INACTIVE
  m_mediaStatus := .MEDIA_STATUS_LOADED
  m_has_video := true
  m_has_audio := true
  m_buffer_empty := true
  m_pendingStop := false
  m_pendingPause := false
  m_pendingSeek := false
  m_subtitle_index := 0
  m_audio_index := 0
  m_streamLength := 10000
  m_incrMs := 0
  m_playspeedCurrent := 0
  m_seekFlush := false
  m_packetAfterSeek := false
  m_metadata := [("title", "clip")]
  m_muted := false
  others := ()

/-- The object `loadedProcessor` with Playing stored as playback state. -/
def playingProcessor : OMX_MediaProcessor (List (String × String)) Unit Unit :=
  { loadedProcessor with m_state := .STATE_PLAYING }

/-- The object `loadedProcessor` with Buffering stored as media status. -/
def bufferingProcessor : OMX_MediaProcessor (List (String × String)) Unit Unit :=
  { loadedProcessor with m_mediaStatus := .MEDIA_STATUS_BUFFERING }

/-- A run of five calls on both axes, with repeated values. -/
def sampleCalls : List Call :=
  [Call.setState .STATE_PLAYING, Call.setState .STATE_PLAYING,
   Call.setMediaStatus .MEDIA_STATUS_LOADED, Call.setMediaStatus .MEDIA_STATUS_BUFFERING,
   Call.setState .STATE_INACTIVE]

/-! ## One call -/

theorem setState_same (tbl : LogTables) (p : OMX_MediaProcessor V R M)
    (s : OMX_MediaProcessorState) (h : p.m_state = s) :
    setState tbl p s = { ret := (), self := p, effects := [] } := by
  simp [setState, h]

theorem setMediaStatus_same (tbl : LogTables) (p : OMX_MediaProcessor V R M)
    (t : OMX_MediaStatus) (h : p.m_mediaStatus = t) :
    setMediaStatus tbl p t = { ret := (), self := p, effects := [] } := by
  simp [setMediaStatus, h]

theorem setState_emitted_of_ne (tbl : LogTables) (p : OMX_MediaProcessor V R M)
    (s : OMX_MediaProcessorState) (h : p.m_state ≠ s) :
    emitted (setState tbl p s).effects = [Signal.stateChanged s] := by
  simp [setState, h, emitted]

theorem setMediaStatus_emitted_of_ne (tbl : LogTables) (p : OMX_MediaProcessor V R M)
    (t : OMX_MediaStatus) (h : p.m_mediaStatus ≠ t) :
    emitted (setMediaStatus tbl p t).effects = [Signal.mediaStatusChanged t] := by
  simp [setMediaStatus, h, emitted]

theorem setState_m_state (tbl : LogTables) (p : OMX_MediaProcessor V R M)
    (s : OMX_MediaProcessorState) : (setState tbl p s).self.m_state = s := by
  by_cases h : p.m_state = s
  · simp [setState, h]
  · simp [setState, h]

theorem setState_m_mediaStatus (tbl : LogTables) (p : OMX_MediaProcessor V R M)
    (s : OMX_MediaProcessorState) :
    (setState tbl p s).self.m_mediaStatus = p.m_mediaStatus := by
  by_cases h : p.m_state = s
  · simp [setState, h]
  · simp [setState, h]

theorem setMediaStatus_m_mediaStatus (tbl : LogTables) (p : OMX_MediaProcessor V R M)
    (t : OMX_MediaStatus) : (setMediaStatus tbl p t).self.m_mediaStatus = t := by
  by_cases h : p.m_mediaStatus = t
  · simp [setMediaStatus, h]
  · simp [setMediaStatus, h]

theorem setMediaStatus_m_state (tbl : LogTables) (p : OMX_MediaProcessor V R M)
    (t : OMX_MediaStatus) : (setMediaStatus tbl p t).self.m_state = p.m_state := by
  by_cases h : p.m_mediaStatus = t
  · simp [setMediaStatus, h]
  · simp [setMediaStatus, h]

/-- C2: when the argument differs from the value held, `setState(b)` stores `b`
(so `state()` returns `b` afterwards) and emits exactly one notification,
`stateChanged(b)`, which carries the new value and not the old one; likewise
`setMediaStatus(t)` stores `t` and emits exactly `mediaStatusChanged(t)`. -/
theorem setter_changed_stores_and_emits_new (tbl : LogTables)
    (p : OMX_MediaProcessor V R M) (b : OMX_MediaProcessorState) (t : OMX_MediaStatus) :
    (b ≠ (state p).ret →
      (state (setState tbl p b).self).ret = b ∧
      emitted (setState tbl p b).effects = [Signal.stateChanged b] ∧
      emitted (setState tbl p b).effects ≠ [Signal.stateChanged (state p).ret]) ∧
    (t ≠ (mediaStatus p).ret →
      (mediaStatus (setMediaStatus tbl p t).self).ret = t ∧
      emitted (setMediaStatus tbl p t).effects = [Signal.mediaStatusChanged t] ∧
      emitted (setMediaStatus tbl p t).effects ≠
        [Signal.mediaStatusChanged (mediaStatus p).ret]) := by
  refine ⟨fun hb => ?_, fun ht => ?_⟩
  · have hb1 : p.m_state ≠ b := fun h => hb h.symm
    refine ⟨setState_m_state tbl p b, setState_emitted_of_ne tbl p b hb1, ?_⟩
    rw [setState_emitted_of_ne tbl p b hb1]
    intro h
    injection h with h1 _
    injection h1 with h2
    exact hb h2
  · have ht1 : p.m_mediaStatus ≠ t := fun h => ht h.symm
    refine ⟨setMediaStatus_m_mediaStatus tbl p t, setMediaStatus_emitted_of_ne tbl p t ht1, ?_⟩
    rw [setMediaStatus_emitted_of_ne tbl p t ht1]
    intro h
    injection h with h1 _
    injection h1 with h2
    exact ht h2

/-- Witness of C2: the loaded, inactive processor set to Playing and to
Buffering. -/
theorem setter_changed_stores_and_emits_new_witness :
    ((state (setState enumeratorNames loadedProcessor .STATE_PLAYING).self).ret
        = .STATE_PLAYING ∧
      emitted (setState enumeratorNames loadedProcessor .STATE_PLAYING).effects
        = [Signal.stateChanged .STATE_PLAYING] ∧
      emitted (setState enumeratorNames loadedProcessor .STATE_PLAYING).effects
        ≠ [Signal.stateChanged (state loadedProcessor).ret]) ∧
    ((mediaStatus (setMediaStatus enumeratorNames loadedProcessor
        .MEDIA_STATUS_BUFFERING).self).ret = .MEDIA_STATUS_BUFFERING ∧
      emitted (setMediaStatus enumeratorNames loadedProcessor
        .MEDIA_STATUS_BUFFERING).effects
        = [Signal.mediaStatusChanged .MEDIA_STATUS_BUFFERING] ∧
      emitted (setMediaStatus enumeratorNames loadedProcessor
        .MEDIA_STATUS_BUFFERING).effects
        ≠ [Signal.mediaStatusChanged (mediaStatus loadedProcessor).ret]) :=
  ⟨(setter_changed_stores_and_emits_new enumeratorNames loadedProcessor
      .STATE_PLAYING .MEDIA_STATUS_BUFFERING).1 (by decide),
   (setter_changed_stores_and_emits_new enumeratorNames loadedProcessor
      .STATE_PLAYING .MEDIA_STATUS_BUFFERING).2 (by decide)⟩

/-- C3: `setState(s)` with `s` the value held returns without side effects: the
object is unchanged in every member and nothing is logged or emitted; the same
for `setMediaStatus(t)`.  Consequently, for every `s`, two calls of
`setState(s)` in a row leave the object and the notifications of one call. -/
theorem setter_same_value_is_noop (tbl : LogTables) (p : OMX_MediaProcessor V R M)
    (s : OMX_MediaProcessorState) (t : OMX_MediaStatus) :
    (s = (state p).ret → (setState tbl p s).self = p ∧ (setState tbl p s).effects = []) ∧
    (t = (mediaStatus p).ret →
      (setMediaStatus tbl p t).self = p ∧ (setMediaStatus tbl p t).effects = []) ∧
    ((invokeAll tbl p [Call.setState s, Call.setState s]).1
        = (invokeAll tbl p [Call.setState s]).1 ∧
      notificationsOfRun tbl p [Call.setState s, Call.setState s]
        = notificationsOfRun tbl p [Call.setState s]) := by
  refine ⟨fun hs => ?_, fun ht => ?_, ?_⟩
  · rw [setState_same tbl p s hs.symm]
    exact ⟨rfl, rfl⟩
  · rw [setMediaStatus_same tbl p t ht.symm]
    exact ⟨rfl, rfl⟩
  · have h2 := setState_same tbl (setState tbl p s).self s (setState_m_state tbl p s)
    simp [notificationsOfRun, invokeAll, Call.invoke, h2]

/-- Witness of C3: the loaded, inactive processor set to Inactive and to
Loaded again. -/
theorem setter_same_value_is_noop_witness :
    ((setState enumeratorNames loadedProcessor .STATE_INACTIVE).self = loadedProcessor ∧
      (setState enumeratorNames loadedProcessor .STATE_INACTIVE).effects = []) ∧
    ((setMediaStatus enumeratorNames loadedProcessor .MEDIA_STATUS_LOADED).self
        = loadedProcessor ∧
      (setMediaStatus enumeratorNames loadedProcessor .MEDIA_STATUS_LOADED).effects = []) :=
  ⟨(setter_same_value_is_noop enumeratorNames loadedProcessor
      .STATE_INACTIVE .MEDIA_STATUS_LOADED).1 (by decide),
   (setter_same_value_is_noop enumeratorNames loadedProcessor
      .STATE_INACTIVE .MEDIA_STATUS_LOADED).2.1 (by decide)⟩

/-- C4: whenever `setState(s)` emits `stateChanged(x)`, the value has been
stored before the emission: `state()` called on the object as it is at the
emission returns `x`, and so does `state()` called once `setState` has
returned; likewise `mediaStatus()` for `mediaStatusChanged(x)`. -/
theorem notification_sees_new_value (tbl : LogTables) (p : OMX_MediaProcessor V R M)
    (s : OMX_MediaProcessorState) (t : OMX_MediaStatus) :
    (∀ x seen, Effect.emit (Signal.stateChanged x) seen ∈ (setState tbl p s).effects →
      x = s ∧ (state seen).ret = x ∧ (state (setState tbl p s).self).ret = x) ∧
    (∀ x seen,
      Effect.emit (Signal.mediaStatusChanged x) seen ∈ (setMediaStatus tbl p t).effects →
      x = t ∧ (mediaStatus seen).ret = x ∧
        (mediaStatus (setMediaStatus tbl p t).self).ret = x) := by
  refine ⟨fun x seen hmem => ?_, fun x seen hmem => ?_⟩
  · by_cases h : p.m_state = s
    · simp [setState, h] at hmem
    · simp [setState, h] at hmem
      obtain ⟨hx, hseen⟩ := hmem
      subst hx
      subst hseen
      simp [state, setState, h]
  · by_cases h : p.m_mediaStatus = t
    · simp [setMediaStatus, h] at hmem
    · simp [setMediaStatus, h] at hmem
      obtain ⟨hx, hseen⟩ := hmem
      subst hx
      subst hseen
      simp [mediaStatus, setMediaStatus, h]

/-- Witness of C4: the notifications of setting the loaded, inactive processor
to Playing and to Buffering. -/
theorem notification_sees_new_value_witness :
    (OMX_MediaProcessorState.STATE_PLAYING = .STATE_PLAYING ∧
      (state playingProcessor).ret = .STATE_PLAYING ∧
      (state (setState enumeratorNames loadedProcessor .STATE_PLAYING).self).ret
        = .STATE_PLAYING) ∧
    (OMX_MediaStatus.MEDIA_STATUS_BUFFERING = .MEDIA_STATUS_BUFFERING ∧
      (mediaStatus bufferingProcessor).ret
        = .MEDIA_STATUS_BUFFERING ∧
      (mediaStatus (setMediaStatus enumeratorNames loadedProcessor
        .MEDIA_STATUS_BUFFERING).self).ret = .MEDIA_STATUS_BUFFERING) :=
  ⟨(notification_sees_new_value enumeratorNames loadedProcessor
      .STATE_PLAYING .MEDIA_STATUS_BUFFERING).1 .STATE_PLAYING
      playingProcessor (by decide),
   (notification_sees_new_value enumeratorNames loadedProcessor
      .STATE_PLAYING .MEDIA_STATUS_BUFFERING).2 .MEDIA_STATUS_BUFFERING
      bufferingProcessor (by decide)⟩

/-- C5: the two axes are independent: `setState(s)` leaves `mediaStatus()`
unchanged and `setMediaStatus(t)` leaves `state()` unchanged; there are 4
playback states and 9 media statuses, hence 36 pairs, and from any object one
`setState(s)` and one `setMediaStatus(t)`, in either order, reach the pair
`(s, t)`. -/
theorem axes_independent_all_pairs_reachable (tbl : LogTables)
    (p : OMX_MediaProcessor V R M) (s : OMX_MediaProcessorState) (t : OMX_MediaStatus) :
    (mediaStatus (setState tbl p s).self).ret = (mediaStatus p).ret ∧
    (state (setMediaStatus tbl p t).self).ret = (state p).ret ∧
    Fintype.card OMX_MediaProcessorState = 4 ∧
    Fintype.card OMX_MediaStatus = 9 ∧
    Fintype.card (OMX_MediaProcessorState × OMX_MediaStatus) = 36 ∧
    ((state (invokeAll tbl p [Call.setState s, Call.setMediaStatus t]).1).ret = s ∧
      (mediaStatus (invokeAll tbl p [Call.setState s, Call.setMediaStatus t]).1).ret = t) ∧
    ((state (invokeAll tbl p [Call.setMediaStatus t, Call.setState s]).1).ret = s ∧
      (mediaStatus (invokeAll tbl p [Call.setMediaStatus t, Call.setState s]).1).ret = t) := by
  refine ⟨setState_m_mediaStatus tbl p s, setMediaStatus_m_state tbl p t, rfl, rfl, rfl, ?_, ?_⟩
  · simp [invokeAll, Call.invoke, state, mediaStatus, setMediaStatus_m_mediaStatus,
      setMediaStatus_m_state, setState_m_state]
  · simp [invokeAll, Call.invoke, state, mediaStatus, setState_m_mediaStatus,
      setMediaStatus_m_mediaStatus, setState_m_state]

/-! ## Runs of calls -/

theorem emitted_append (es fs : List (Effect V R M)) :
    emitted (es ++ fs) = emitted es ++ emitted fs := by
  induction es with
  | nil => rfl
  | cons e es ih => cases e <;> simp [emitted, ih]

theorem invoke_m_state (tbl : LogTables) (p : OMX_MediaProcessor V R M) (c : Call) :
    (c.invoke tbl p).self.m_state = c.stateArg?.getD p.m_state := by
  cases c with
  | setState s => simp [Call.invoke, Call.stateArg?, setState_m_state]
  | setMediaStatus t => simp [Call.invoke, Call.stateArg?, setMediaStatus_m_state]

theorem invoke_m_mediaStatus (tbl : LogTables) (p : OMX_MediaProcessor V R M) (c : Call) :
    (c.invoke tbl p).self.m_mediaStatus = c.statusArg?.getD p.m_mediaStatus := by
  cases c with
  | setState s => simp [Call.invoke, Call.statusArg?, setState_m_mediaStatus]
  | setMediaStatus t => simp [Call.invoke, Call.statusArg?, setMediaStatus_m_mediaStatus]

theorem precedingState_cons (s0 : OMX_MediaProcessorState) (c : Call) (cs : List Call) :
    precedingState s0 (c :: cs) = precedingState (c.stateArg?.getD s0) cs := by
  cases c with
  | setState s => simp [precedingState, Call.stateArg?, List.getLast?_cons]
  | setMediaStatus t => simp [precedingState, Call.stateArg?]

theorem precedingStatus_cons (t0 : OMX_MediaStatus) (c : Call) (cs : List Call) :
    precedingStatus t0 (c :: cs) = precedingStatus (c.statusArg?.getD t0) cs := by
  cases c with
  | setState s => simp [precedingStatus, Call.statusArg?]
  | setMediaStatus t => simp [precedingStatus, Call.statusArg?, List.getLast?_cons]

/-- The `i`-th call of a run acts on an object that holds, on each axis, the
argument of the last earlier call on that axis (or the initial value). -/
theorem notificationsOfCall_eq (tbl : LogTables) :
    ∀ (calls : List Call) (p : OMX_MediaProcessor V R M) (i : Nat) (c : Call),
      calls[i]? = some c →
      ∃ q : OMX_MediaProcessor V R M,
        q.m_state = precedingState p.m_state (calls.take i) ∧
        q.m_mediaStatus = precedingStatus p.m_mediaStatus (calls.take i) ∧
        notificationsOfCall tbl p calls i = emitted (c.invoke tbl q).effects := by
  intro calls
  induction calls with
  | nil => intro p i c h; simp at h
  | cons d ds ih =>
    intro p i c h
    cases i with
    | zero =>
      simp at h
      subst h
      exact ⟨p, by simp [precedingState], by simp [precedingStatus],
        by simp [notificationsOfCall, invokeAll]⟩
    | succ j =>
      simp at h
      obtain ⟨q, h1, h2, h3⟩ := ih (d.invoke tbl p).self j c h
      refine ⟨q, ?_, ?_, ?_⟩
      · rw [h1, List.take_succ_cons, precedingState_cons, invoke_m_state]
      · rw [h2, List.take_succ_cons, precedingStatus_cons, invoke_m_mediaStatus]
      · rw [← h3]
        simp [notificationsOfCall, invokeAll]

/-- C1: in every run of `setState` / `setMediaStatus` calls from every object,
the `i`-th call emits a notification if and only if its argument differs from
the value held on its axis just before it (the argument of the previous call
on that axis, or the initial value); what it emits is on its own axis and
carries its argument, it emits nothing on the other axis, and it emits at
most one notification. -/
theorem notification_iff_value_differs (tbl : LogTables) (p : OMX_MediaProcessor V R M)
    (calls : List Call) (i : Nat) (h : i < calls.length) :
    match calls[i] with
    | Call.setState s =>
      (notificationsOfCall tbl p calls i ≠ [] ↔
        s ≠ precedingState (state p).ret (calls.take i)) ∧
      (∀ n ∈ notificationsOfCall tbl p calls i, n = Signal.stateChanged s) ∧
      (∀ x, Signal.mediaStatusChanged x ∉ notificationsOfCall tbl p calls i) ∧
      (notificationsOfCall tbl p calls i).length ≤ 1
    | Call.setMediaStatus t =>
      (notificationsOfCall tbl p calls i ≠ [] ↔
        t ≠ precedingStatus (mediaStatus p).ret (calls.take i)) ∧
      (∀ n ∈ notificationsOfCall tbl p calls i, n = Signal.mediaStatusChanged t) ∧
      (∀ x, Signal.stateChanged x ∉ notificationsOfCall tbl p calls i) ∧
      (notificationsOfCall tbl p calls i).length ≤ 1 := by
  have hc : calls[i]? = some calls[i] := List.getElem?_eq_getElem h
  obtain ⟨q, h1, h2, h3⟩ := notificationsOfCall_eq tbl calls p i calls[i] hc
  generalize calls[i] = c at h3 ⊢
  cases c with
  | setState s =>
    simp only [state]
    rw [h3, ← h1]
    by_cases hq : q.m_state = s
    · simp [Call.invoke, setState, hq, emitted]
    · have hq1 : ¬ s = q.m_state := fun e => hq e.symm
      simp [Call.invoke, setState, hq, hq1, emitted]
  | setMediaStatus t =>
    simp only [mediaStatus]
    rw [h3, ← h2]
    by_cases hq : q.m_mediaStatus = t
    · simp [Call.invoke, setMediaStatus, hq, emitted]
    · have hq1 : ¬ t = q.m_mediaStatus := fun e => hq e.symm
      simp [Call.invoke, setMediaStatus, hq, hq1, emitted]

/-- Witness of C1: the fourth call of `sampleCalls` on the loaded, inactive
processor, `setMediaStatus(Buffering)` after `setMediaStatus(Loaded)`. -/
theorem notification_iff_value_differs_witness :
    3 < sampleCalls.length ∧
    ((notificationsOfCall enumeratorNames loadedProcessor sampleCalls 3 ≠ [] ↔
        OMX_MediaStatus.MEDIA_STATUS_BUFFERING ≠
          precedingStatus (mediaStatus loadedProcessor).ret (sampleCalls.take 3)) ∧
      (∀ n ∈ notificationsOfCall enumeratorNames loadedProcessor sampleCalls 3,
        n = Signal.mediaStatusChanged .MEDIA_STATUS_BUFFERING) ∧
      (∀ x, Signal.stateChanged x ∉
        notificationsOfCall enumeratorNames loadedProcessor sampleCalls 3) ∧
      (notificationsOfCall enumeratorNames loadedProcessor sampleCalls 3).length ≤ 1) :=
  ⟨by decide,
   notification_iff_value_differs enumeratorNames loadedProcessor sampleCalls 3 (by decide)⟩

theorem statePayloads_map (l : List OMX_MediaProcessorState) :
    statePayloads (l.map (Signal.stateChanged : _ → Signal V R)) = l := by
  induction l with
  | nil => rfl
  | cons a l ih => simp [statePayloads, ih]

theorem statusPayloads_map (l : List OMX_MediaStatus) :
    statusPayloads (l.map (Signal.mediaStatusChanged : _ → Signal V R)) = l := by
  induction l with
  | nil => rfl
  | cons a l ih => simp [statusPayloads, ih]

theorem notificationsOfRun_cons (tbl : LogTables) (p : OMX_MediaProcessor V R M)
    (c : Call) (cs : List Call) :
    notificationsOfRun tbl p (c :: cs) =
      emitted (c.invoke tbl p).effects ++ notificationsOfRun tbl (c.invoke tbl p).self cs := by
  simp [notificationsOfRun, invokeAll, emitted_append]

/-- The run of `setState` calls: the notifications are `stateChanged` ones whose
payloads form a chain of changes starting at the initial state and ending at
the state stored. -/
theorem setState_run (tbl : LogTables) :
    ∀ (args : List OMX_MediaProcessorState) (p : OMX_MediaProcessor V R M),
      ∃ l : List OMX_MediaProcessorState,
        notificationsOfRun tbl p (args.map Call.setState) = l.map Signal.stateChanged ∧
        (invokeAll tbl p (args.map Call.setState)).1.m_state = l.getLast?.getD p.m_state ∧
        List.Chain (· ≠ ·) p.m_state l := by
  intro args
  induction args with
  | nil => intro p; exact ⟨[], by simp [notificationsOfRun, invokeAll, emitted], by simp [invokeAll], List.Chain.nil⟩
  | cons a as ih =>
    intro p
    obtain ⟨l, h1, h2, h3⟩ := ih (setState tbl p a).self
    rw [setState_m_state] at h2 h3
    by_cases h : p.m_state = a
    · have hs : (setState tbl p a).self = p := by rw [setState_same tbl p a h]
      rw [hs] at h1
      refine ⟨l, ?_, ?_, ?_⟩
      · rw [List.map_cons, notificationsOfRun_cons]
        simp only [Call.invoke]
        rw [setState_same tbl p a h]
        simpa [emitted] using h1
      · simp only [List.map_cons, invokeAll, Call.invoke]
        rw [h2, h]
      · rw [h]; exact h3
    · refine ⟨a :: l, ?_, ?_, ?_⟩
      · rw [List.map_cons, notificationsOfRun_cons]
        simp only [Call.invoke]
        rw [setState_emitted_of_ne tbl p a h, h1]
        rfl
      · simp only [List.map_cons, invokeAll, Call.invoke]
        rw [h2, List.getLast?_cons]
        rfl
      · exact List.Chain.cons h h3

/-- The run of `setMediaStatus` calls: the notifications are `mediaStatusChanged`
ones whose payloads form a chain of changes starting at the initial status and
ending at the status stored. -/
theorem setMediaStatus_run (tbl : LogTables) :
    ∀ (args : List OMX_MediaStatus) (p : OMX_MediaProcessor V R M),
      ∃ l : List OMX_MediaStatus,
        notificationsOfRun tbl p (args.map Call.setMediaStatus)
          = l.map Signal.mediaStatusChanged ∧
        (invokeAll tbl p (args.map Call.setMediaStatus)).1.m_mediaStatus
          = l.getLast?.getD p.m_mediaStatus ∧
        List.Chain (· ≠ ·) p.m_mediaStatus l := by
  intro args
  induction args with
  | nil => intro p; exact ⟨[], by simp [notificationsOfRun, invokeAll, emitted], by simp [invokeAll], List.Chain.nil⟩
  | cons a as ih =>
    intro p
    obtain ⟨l, h1, h2, h3⟩ := ih (setMediaStatus tbl p a).self
    rw [setMediaStatus_m_mediaStatus] at h2 h3
    by_cases h : p.m_mediaStatus = a
    · have hs : (setMediaStatus tbl p a).self = p := by rw [setMediaStatus_same tbl p a h]
      rw [hs] at h1
      refine ⟨l, ?_, ?_, ?_⟩
      · rw [List.map_cons, notificationsOfRun_cons]
        simp only [Call.invoke]
        rw [setMediaStatus_same tbl p a h]
        simpa [emitted] using h1
      · simp only [List.map_cons, invokeAll, Call.invoke]
        rw [h2, h]
      · rw [h]; exact h3
    · refine ⟨a :: l, ?_, ?_, ?_⟩
      · rw [List.map_cons, notificationsOfRun_cons]
        simp only [Call.invoke]
        rw [setMediaStatus_emitted_of_ne tbl p a h, h1]
        rfl
      · simp only [List.map_cons, invokeAll, Call.invoke]
        rw [h2, List.getLast?_cons]
        rfl
      · exact List.Chain.cons h h3

theorem chain_ne_head (α : Type) (a : α) (l : List α) (h : List.Chain (· ≠ ·) a l) :
    l.head? ≠ some a := by
  cases l with
  | nil => simp
  | cons b l =>
    rw [List.chain_cons] at h
    simpa using fun e => h.1 e.symm

theorem chain_tail (α : Type) (a : α) (l : List α) (h : List.Chain (· ≠ ·) a l) :
    List.Chain' (· ≠ ·) l := by
  have h2 : List.Chain' (· ≠ ·) (a :: l) := h
  exact h2.tail

/-- C10: from every object, after every finite sequence of `setState` calls
every notification emitted is a `stateChanged`, `state()` returns the payload
of the last one (the initial state when none was emitted), no two consecutive
ones carry the same value, and the first one differs from the initial state;
the same holds for `setMediaStatus`, `mediaStatus()` and
`mediaStatusChanged`. -/
theorem listener_mirror_invariant (tbl : LogTables) (p : OMX_MediaProcessor V R M)
    (states : List OMX_MediaProcessorState) (statuses : List OMX_MediaStatus) :
    (notificationsOfRun tbl p (states.map Call.setState)
        = (statePayloads (notificationsOfRun tbl p (states.map Call.setState))).map
            Signal.stateChanged ∧
      (state (invokeAll tbl p (states.map Call.setState)).1).ret
        = (statePayloads (notificationsOfRun tbl p (states.map Call.setState))).getLast?.getD
            (state p).ret ∧
      List.Chain' (· ≠ ·)
        (statePayloads (notificationsOfRun tbl p (states.map Call.setState))) ∧
      (statePayloads (notificationsOfRun tbl p (states.map Call.setState))).head?
        ≠ some (state p).ret) ∧
    (notificationsOfRun tbl p (statuses.map Call.setMediaStatus)
        = (statusPayloads (notificationsOfRun tbl p (statuses.map Call.setMediaStatus))).map
            Signal.mediaStatusChanged ∧
      (mediaStatus (invokeAll tbl p (statuses.map Call.setMediaStatus)).1).ret
        = (statusPayloads
            (notificationsOfRun tbl p (statuses.map Call.setMediaStatus))).getLast?.getD
            (mediaStatus p).ret ∧
      List.Chain' (· ≠ ·)
        (statusPayloads (notificationsOfRun tbl p (statuses.map Call.setMediaStatus))) ∧
      (statusPayloads (notificationsOfRun tbl p (statuses.map Call.setMediaStatus))).head?
        ≠ some (mediaStatus p).ret) := by
  constructor
  · obtain ⟨l, h1, h2, h3⟩ := setState_run tbl states p
    rw [h1, statePayloads_map]
    exact ⟨rfl, h2, chain_tail _ _ _ h3, chain_ne_head _ _ _ h3⟩
  · obtain ⟨l, h1, h2, h3⟩ := setMediaStatus_run tbl statuses p
    rw [h1, statusPayloads_map]
    exact ⟨rfl, h2, chain_tail _ _ _ h3, chain_ne_head _ _ _ h3⟩

end PiOmxTextures
